import Mathlib

/-!
# Verification of the go-log logger registry and level-control subsystem

Shallow embedding of the registry / level-control core of the go-log
repository (`log.go`, `setup.go`, plus the `LogFormat` enum file).  Global
mutable package state (`loggers`, `levels`, `defaultLevel`, `primaryFormat`,
`primaryCore`, the multi-core) is modelled as an explicit `State` record
threaded through every operation.  Go maps become association lists with
unique keys; the per-subsystem `zap.AtomicLevel` cells become a heap of
cells addressed by `CellId`, so that sharing of a live level cell between
logger handles is expressible.  External collaborators (the zap backend's
`zap.Open`/`newCore`, the regexp engine, file-path normalization) are out of
the repository's source; they are parameters of the operations that use
them.
-/

namespace GoLog

/-- Modelled from the spec: the repository's `LogLevel` enum (its defining
file `levels.go` is not among the provided sources).  "Level — an ordered
enumeration of verbosity (Debug < Info < Warn < Error < DPanic < Panic <
Fatal)". -/
inductive LogLevel where
  | LevelDebug
  | LevelInfo
  | LevelWarn
  | LevelError
  | LevelDPanic
  | LevelPanic
  | LevelFatal
  deriving DecidableEq, Repr

/-- `LogFormat` — from the source file defining the format enum. -/
inductive LogFormat where
  | FormatColorizedOutput
  | FormatPlaintextOutput
  | FormatJSONOutput
  deriving DecidableEq, Repr

/-- Errors returned by the public API (`ErrNoSuchLogger` is declared in
`setup.go`; parse and regex-compile errors are passed through from the
helpers that produce them). -/
inductive LogError where
  | unknownLevel (msg : String)
  | noSuchLogger
  | invalidPattern (msg : String)
  deriving DecidableEq, Repr

/-- Modelled from the spec: `LevelFromString` (its defining file `levels.go`
is not among the provided sources).  "parse(string) -> Level —
case-insensitive match against the fixed token set; fails with
`UnknownLevel` error otherwise", tokens
`debug`,`info`,`warn`,`error`,`dpanic`,`panic`,`fatal`. -/
def LevelFromString (s : String) : Except String LogLevel :=
  match String.mk (s.data.map Char.toLower) with
  | "debug" => .ok .LevelDebug
  | "info" => .ok .LevelInfo
  | "warn" => .ok .LevelWarn
  | "error" => .ok .LevelError
  | "dpanic" => .ok .LevelDPanic
  | "panic" => .ok .LevelPanic
  | "fatal" => .ok .LevelFatal
  | _ => .error "unknown level"

instance : DecidableEq (Except String LogLevel) := fun a b =>
  match a, b with
  | .ok x, .ok y =>
    if h : x = y then isTrue (by rw [h])
    else isFalse (by intro hc; cases hc; exact h rfl)
  | .error x, .error y =>
    if h : x = y then isTrue (by rw [h])
    else isFalse (by intro hc; cases hc; exact h rfl)
  | .ok _, .error _ => isFalse (by intro hc; cases hc)
  | .error _, .ok _ => isFalse (by intro hc; cases hc)

/-- A write core, as far as the registry needs it: the formatting mode, the
ordered output-destination list it was opened with, and the static labels
attached to it (`newCore(primaryFormat, outputs, LevelDebug)` plus the
`With(label)` loop in `SetupLogging`). -/
structure Core where
  format : LogFormat
  paths : List String
  labels : List (String × String)
  deriving DecidableEq, Repr

/-- `Config` — from `setup.go` / the spec's data model.  Go maps
(`SubsystemLevels`, `Labels`) are association lists with unique keys. -/
structure Config where
  Format : LogFormat
  Stderr : Bool
  Stdout : Bool
  File : String
  URL : String
  Level : LogLevel
  SubsystemLevels : List (String × LogLevel)
  Labels : List (String × String)

/-- Identity of one `zap.AtomicLevel` holder. -/
abbrev CellId := Nat

/-- The package-level mutable state of `setup.go`/`log.go`:
`loggers` and `levels` are the two registry maps (each binding a subsystem
name to the cell its logger filters by, resp. to its atomic-level holder),
`cells` is the heap of atomic-level holders, `nextCell` the allocator for
fresh holders, and the remaining fields mirror `defaultLevel`,
`primaryFormat`, `primaryCore` and the `lockedMultiCore`'s core list.
`emittedErrors` records messages written through the bootstrap
`setup-logger` (the `setuplog.Error` call in `Logger`). -/
structure State where
  loggers : List (String × CellId)
  levels : List (String × CellId)
  cells : CellId → LogLevel
  defaultLevel : LogLevel
  nextCell : CellId
  primaryFormat : LogFormat
  primaryCore : Option Core
  cores : List Core
  emittedErrors : List (String × String)

/-- Association-list lookup, the model of Go map indexing. -/
def alookup {α : Type} (m : List (String × α)) (k : String) : Option α :=
  match m with
  | [] => none
  | (k', v) :: rest => if k' = k then some v else alookup rest k

/-- Write one atomic-level holder (`AtomicLevel.SetLevel`). -/
def updCell (f : CellId → LogLevel) (cid : CellId) (lvl : LogLevel) :
    CellId → LogLevel :=
  fun c => if c = cid then lvl else f c

/-- `getLogger` (log.go): idempotent get-or-create.  Returns the updated
state together with the cell the returned logger filters by (the logger
handle stored in `loggers` is identified by that cell). -/
def getLogger (s : State) (name : String) : State × CellId :=
  match alookup s.loggers name with
  | some cid => (s, cid)
  | none =>
    match alookup s.levels name with
    | some cid =>
      ({ s with loggers := s.loggers ++ [(name, cid)] }, cid)
    | none =>
      let cid := s.nextCell
      ({ s with
          levels := s.levels ++ [(name, cid)],
          cells := updCell s.cells cid s.defaultLevel,
          nextCell := s.nextCell + 1,
          loggers := s.loggers ++ [(name, cid)] }, cid)

/-- The facade handle returned by `Logger`: the subsystem name it is bound
to and the live atomic-level cell its filtering reads. -/
structure ZapEventLogger where
  system : String
  cell : CellId
  deriving DecidableEq, Repr

/-- `Logger` (log.go): empty names are replaced by `"undefined"` after
logging an error through the bootstrap `setup-logger`. -/
def Logger (s : State) (system : String) : State × ZapEventLogger :=
  let (s, system) :=
    if system.length = 0 then
      let (s1, _) := getLogger s "setup-logger"
      ({ s1 with
          emittedErrors :=
            s1.emittedErrors ++ [("setup-logger", "Missing name parameter")] },
        "undefined")
    else (s, system)
  let (s2, cid) := getLogger s system
  (s2, { system := system, cell := cid })

/-- The state after the `Logger("")` bootstrap step: `getLogger("setup-logger")`
followed by the `setuplog.Error("Missing name parameter")` emission. -/
def bootstrapState (s : State) : State :=
  { (getLogger s "setup-logger").1 with
      emittedErrors :=
        (getLogger s "setup-logger").1.emittedErrors ++
          [("setup-logger", "Missing name parameter")] }

/-- `setAllLoggerLevel` (setup.go): set every holder in the `levels` map. -/
def setAllLoggerLevel (s : State) (lvl : LogLevel) : State :=
  { s with
      cells := s.levels.foldl (fun f nc => updCell f nc.2 lvl) s.cells }

/-- `SetLogLevel` (log.go). -/
def SetLogLevel (s : State) (name level : String) :
    State × Option LogError :=
  match LevelFromString level with
  | .error e => (s, some (.unknownLevel e))
  | .ok lvl =>
    if name = "*" then (setAllLoggerLevel s lvl, none)
    else
      match alookup s.levels name with
      | none => (s, some .noSuchLogger)
      | some cid => ({ s with cells := updCell s.cells cid lvl }, none)

/-- `SetLogLevelRegex` (log.go).  The Go regexp engine is external to the
repository, so the outcome of `regexp.Compile(e)` is a parameter: either a
compile error or a matcher `String → Bool`.  The loop body reads
`levels[name]` for each `name` ranged over from `loggers`; a name present
in `loggers` but absent from `levels` cannot arise in well-formed states
(in Go it would dereference a zero-value holder), and is modelled as a
no-op. -/
def SetLogLevelRegex (s : State)
    (compile : Except String (String → Bool)) (l : String) :
    State × Option LogError :=
  match LevelFromString l with
  | .error e => (s, some (.unknownLevel e))
  | .ok lvl =>
    match compile with
    | .error e => (s, some (.invalidPattern e))
    | .ok matches_ =>
      ({ s with
          cells := s.loggers.foldl
            (fun f nc =>
              if matches_ nc.1 then
                match alookup s.levels nc.1 with
                | some cid => updCell f cid lvl
                | none => f
              else f)
            s.cells }, none)

/-- `setPrimaryCore` (setup.go): replace the previous primary core inside
the multi-core, or add the new one if none was active. -/
def setPrimaryCore (s : State) (core : Core) : State :=
  match s.primaryCore with
  | some old =>
    { s with
        cores := s.cores.map (fun c => if c = old then core else c),
        primaryCore := some core }
  | none =>
    { s with cores := s.cores ++ [core], primaryCore := some core }

/-- `SetPrimaryCore` (log.go). -/
def SetPrimaryCore (s : State) (core : Core) : State :=
  setPrimaryCore s core

/-- `GetSubsystems` (log.go): the names of the current loggers. -/
def GetSubsystems (s : State) : List String :=
  s.loggers.map Prod.fst

/-- The output-destination list built at the top of `SetupLogging`
(setup.go): stderr if requested, then stdout if requested, then the
normalized file path when `cfg.File` is non-empty and resolves (a failed
resolution only prints a warning and drops the path), then the URL sink
when `cfg.URL` is non-empty.  `normalizePath` is outside the provided
sources, so path resolution is the parameter `resolve`. -/
def outputPaths (resolve : String → Option String) (cfg : Config) :
    List String :=
  let ps : List String := []
  let ps := if cfg.Stderr then ps ++ ["stderr"] else ps
  let ps := if cfg.Stdout then ps ++ ["stdout"] else ps
  let ps :=
    if 0 < cfg.File.length then
      match resolve cfg.File with
      | none => ps
      | some path => ps ++ [path]
    else ps
  if 0 < cfg.URL.length then ps ++ [cfg.URL] else ps

/-- One iteration of the `cfg.SubsystemLevels` loop at the end of
`SetupLogging`: mutate the existing holder, or create a fresh one. -/
def applySubsystemLevel (s : State) (nl : String × LogLevel) : State :=
  match alookup s.levels nl.1 with
  | some cid => { s with cells := updCell s.cells cid nl.2 }
  | none =>
    { s with
        levels := s.levels ++ [(nl.1, s.nextCell)],
        cells := updCell s.cells s.nextCell nl.2,
        nextCell := s.nextCell + 1 }

/-- The `cfg.SubsystemLevels` loop of `SetupLogging`. -/
def applySubsystemLevels (s : State) (sl : List (String × LogLevel)) :
    State :=
  sl.foldl applySubsystemLevel s

/-- `SetupLogging` (setup.go).  `zap.Open` and `newCore` are external; the
new primary core is recorded as the `Core` value carrying the format, the
resolved output paths and the labels. -/
def SetupLogging (resolve : String → Option String) (s : State)
    (cfg : Config) : State :=
  let s := { s with primaryFormat := cfg.Format, defaultLevel := cfg.Level }
  let newPrimaryCore : Core :=
    { format := cfg.Format,
      paths := outputPaths resolve cfg,
      labels := cfg.Labels }
  let s := setPrimaryCore s newPrimaryCore
  let s := setAllLoggerLevel s cfg.Level
  applySubsystemLevels s cfg.SubsystemLevels

/-- The public operations, for quantifying over interleavings. -/
inductive Op where
  | logger (name : String)
  | setup (resolve : String → Option String) (cfg : Config)
  | setLevel (name level : String)
  | setLevelRegex (compile : Except String (String → Bool)) (level : String)
  | setPrimary (core : Core)
  | getSubsystems

/-- Run one public operation, discarding its return value. -/
def runOp (s : State) : Op → State
  | .logger name => (Logger s name).1
  | .setup resolve cfg => SetupLogging resolve s cfg
  | .setLevel name level => (SetLogLevel s name level).1
  | .setLevelRegex compile level => (SetLogLevelRegex s compile level).1
  | .setPrimary core => SetPrimaryCore s core
  | .getSubsystems => s

/-- Run a sequence of public operations. -/
def runOps (ops : List Op) (s : State) : State :=
  ops.foldl runOp s

/-- Well-formedness of the registry state, maintained by every operation:
the two maps have unique keys, distinct names own distinct cells, every
allocated cell is below the allocator, and every `loggers` binding agrees
with the `levels` binding of the same name. -/
abbrev WF (s : State) : Prop :=
  (s.levels.map Prod.fst).Nodup ∧
  (s.levels.map Prod.snd).Nodup ∧
  (∀ nc ∈ s.levels, nc.2 < s.nextCell) ∧
  (s.loggers.map Prod.fst).Nodup ∧
  (∀ nc ∈ s.loggers, alookup s.levels nc.1 = some nc.2)

/-- The state at package load, before `init` runs `SetupLogging`
(`loggers`/`levels` empty, `defaultLevel = LevelError`,
`primaryFormat = FormatColorizedOutput`, no primary core). -/
def initState : State :=
  { loggers := []
    levels := []
    cells := fun _ => .LevelError
    defaultLevel := .LevelError
    nextCell := 0
    primaryFormat := .FormatColorizedOutput
    primaryCore := none
    cores := []
    emittedErrors := [] }

/-- The output-destination order as the specification's words state it for
claim C3: file first (when non-empty and resolvable), then explicit stdout,
then explicit stderr, then the URL sink.  Kept separate from `outputPaths`
(which follows the source) so the two can be compared. -/
def outputPathsSpecC3 (resolve : String → Option String) (cfg : Config) :
    List String :=
  (if 0 < cfg.File.length then
     match resolve cfg.File with
     | none => []
     | some path => [path]
   else []) ++
  (if cfg.Stdout then ["stdout"] else []) ++
  (if cfg.Stderr then ["stderr"] else []) ++
  (if 0 < cfg.URL.length then [cfg.URL] else [])

/-- A small well-formed registry state: one subsystem `"a"` with logger and
level holder in cell 0. -/
def stA : State :=
  { loggers := [("a", 0)]
    levels := [("a", 0)]
    cells := fun _ => .LevelError
    defaultLevel := .LevelError
    nextCell := 1
    primaryFormat := .FormatColorizedOutput
    primaryCore := none
    cores := []
    emittedErrors := [] }

/-- A well-formed state where `"pre"` has a pre-created level holder
(cell 1) but no logger entry. -/
def stPre : State :=
  { loggers := [("a", 0)]
    levels := [("a", 0), ("pre", 1)]
    cells := fun _ => .LevelError
    defaultLevel := .LevelError
    nextCell := 2
    primaryFormat := .FormatColorizedOutput
    primaryCore := none
    cores := []
    emittedErrors := [] }

/-- A configuration with a default level and two subsystem overrides. -/
def cfgW : Config :=
  { Format := .FormatJSONOutput
    Stderr := true
    Stdout := false
    File := ""
    URL := ""
    Level := .LevelDebug
    SubsystemLevels := [("a", .LevelInfo), ("b", .LevelWarn)]
    Labels := [] }

/-- A configuration requesting all four output destinations. -/
def cfgC3 : Config :=
  { Format := .FormatJSONOutput
    Stderr := true
    Stdout := true
    File := "f"
    URL := "u"
    Level := .LevelError
    SubsystemLevels := []
    Labels := [] }

/-! ## Association-list and cell lemmas -/

theorem alookup_append {α : Type} (m l : List (String × α)) (k : String) :
    alookup (m ++ l) k = (alookup m k).or (alookup l k) := by
  induction m with
  | nil => simp [alookup]
  | cons kv rest ih =>
    by_cases h : kv.1 = k
    · simp [alookup, h]
    · simpa [alookup, h] using ih

theorem alookup_mem {α : Type} {m : List (String × α)} {k : String} {v : α}
    (h : alookup m k = some v) : (k, v) ∈ m := by
  induction m with
  | nil => simp [alookup] at h
  | cons kv rest ih =>
    by_cases hk : kv.1 = k
    · rw [alookup, if_pos hk] at h
      cases h
      exact List.mem_cons.2 (Or.inl (by rw [← hk]))
    · rw [alookup, if_neg hk] at h
      exact List.mem_cons.2 (Or.inr (ih h))

theorem alookup_ne_none_iff {α : Type} (m : List (String × α)) (k : String) :
    alookup m k ≠ none ↔ k ∈ m.map Prod.fst := by
  induction m with
  | nil => simp [alookup]
  | cons kv rest ih =>
    by_cases hk : kv.1 = k
    · simp [alookup, hk]
    · simp [alookup, hk, ih, Ne.symm hk]

theorem alookup_eq_none_of_not_mem {α : Type} {m : List (String × α)}
    {k : String} (h : k ∉ m.map Prod.fst) : alookup m k = none := by
  by_contra hne
  exact h ((alookup_ne_none_iff m k).1 hne)

theorem alookup_snd_inj {α : Type} {m : List (String × α)}
    (hnd : (m.map Prod.snd).Nodup) {k1 k2 : String} {v : α}
    (h1 : alookup m k1 = some v) (h2 : alookup m k2 = some v) : k1 = k2 := by
  have hm1 : (k1, v) ∈ m := alookup_mem h1
  have hm2 : (k2, v) ∈ m := alookup_mem h2
  have := List.inj_on_of_nodup_map hnd hm1 hm2 rfl
  exact congrArg Prod.fst this

theorem updCell_same (f : CellId → LogLevel) (c : CellId) (v : LogLevel) :
    updCell f c v c = v := by
  simp [updCell]

theorem updCell_other (f : CellId → LogLevel) {c c' : CellId} (v : LogLevel)
    (h : c' ≠ c) : updCell f c v c' = f c' := by
  simp [updCell, h]

/-! ## `setAllLoggerLevel` lemmas -/

theorem foldl_updCell_apply (L : List (String × CellId)) (lvl : LogLevel)
    (f : CellId → LogLevel) (c : CellId) :
    (L.foldl (fun g nc => updCell g nc.2 lvl) f) c =
      if c ∈ L.map Prod.snd then lvl else f c := by
  induction L generalizing f with
  | nil => simp
  | cons nc rest ih =>
    rw [List.foldl_cons, ih]
    by_cases hc : c ∈ rest.map Prod.snd
    · simp [hc]
    · by_cases he : c = nc.2
      · simp [hc, he, updCell_same]
      · simp [hc, he, updCell_other _ _ he]

theorem setAll_levels (s : State) (lvl : LogLevel) :
    (setAllLoggerLevel s lvl).levels = s.levels := rfl

theorem setAll_loggers (s : State) (lvl : LogLevel) :
    (setAllLoggerLevel s lvl).loggers = s.loggers := rfl

theorem setAll_cells_of_mem {s : State} {n : String} {c : CellId}
    (h : alookup s.levels n = some c) (lvl : LogLevel) :
    (setAllLoggerLevel s lvl).cells c = lvl := by
  have hmem : c ∈ s.levels.map Prod.snd :=
    List.mem_map.2 ⟨(n, c), alookup_mem h, rfl⟩
  simp [setAllLoggerLevel, foldl_updCell_apply, hmem]

theorem setAll_cells_of_not_mem {s : State} {c : CellId}
    (h : c ∉ s.levels.map Prod.snd) (lvl : LogLevel) :
    (setAllLoggerLevel s lvl).cells c = s.cells c := by
  simp [setAllLoggerLevel, foldl_updCell_apply, h]

/-! ## Regex-fold lemmas -/

theorem regexFoldl_eq_of_not_ex (L lvls : List (String × CellId))
    (m : String → Bool) (lvl : LogLevel) (f : CellId → LogLevel) (c : CellId)
    (hex : ¬∃ nc ∈ L, m nc.1 ∧ alookup lvls nc.1 = some c) :
    (L.foldl
      (fun g nc =>
        if m nc.1 then
          match alookup lvls nc.1 with
          | some cid => updCell g cid lvl
          | none => g
        else g) f) c = f c := by
  induction L generalizing f with
  | nil => simp
  | cons nc rest ih =>
    rw [List.foldl_cons]
    have hrest : ¬∃ x ∈ rest, m x.1 ∧ alookup lvls x.1 = some c := by
      intro ⟨x, hx, hmx, hlx⟩
      exact hex ⟨x, List.mem_cons.2 (Or.inr hx), hmx, hlx⟩
    rw [ih _ hrest]
    by_cases hm' : m nc.1
    · cases hl : alookup lvls nc.1 with
      | none => simp [hm', hl]
      | some cid =>
        have hne : c ≠ cid := by
          intro hcc
          exact hex ⟨nc, List.mem_cons.2 (Or.inl rfl), hm', by rw [hl, hcc]⟩
        simp [hm', hl, updCell_other _ _ hne]
    · simp [hm']

theorem regexFoldl_eq_of_ex (L lvls : List (String × CellId))
    (m : String → Bool) (lvl : LogLevel) (f : CellId → LogLevel) (c : CellId)
    (hex : ∃ nc ∈ L, m nc.1 ∧ alookup lvls nc.1 = some c) :
    (L.foldl
      (fun g nc =>
        if m nc.1 then
          match alookup lvls nc.1 with
          | some cid => updCell g cid lvl
          | none => g
        else g) f) c = lvl := by
  induction L generalizing f with
  | nil => simp at hex
  | cons nc rest ih =>
    rw [List.foldl_cons]
    by_cases hrex : ∃ x ∈ rest, m x.1 ∧ alookup lvls x.1 = some c
    · exact ih _ hrex
    · rcases hex with ⟨nc', hmem, hm', hlk'⟩
      rcases List.mem_cons.1 hmem with heq | hrest
      · subst heq
        rw [regexFoldl_eq_of_not_ex rest lvls m lvl _ c hrex]
        simp [hm', hlk', updCell_same]
      · exact absurd ⟨nc', hrest, hm', hlk'⟩ hrex

/-! ## `applySubsystemLevel(s)` lemmas -/

theorem applySubsystemLevels_nil (s : State) :
    applySubsystemLevels s [] = s := rfl

theorem applySubsystemLevels_cons (s : State) (nl : String × LogLevel)
    (rest : List (String × LogLevel)) :
    applySubsystemLevels s (nl :: rest) =
      applySubsystemLevels (applySubsystemLevel s nl) rest := rfl

theorem applySubsystemLevel_eq_some {s : State} {nl : String × LogLevel}
    {cid : CellId} (hl : alookup s.levels nl.1 = some cid) :
    applySubsystemLevel s nl = { s with cells := updCell s.cells cid nl.2 } := by
  unfold applySubsystemLevel
  rw [hl]

theorem applySubsystemLevel_eq_none {s : State} {nl : String × LogLevel}
    (hl : alookup s.levels nl.1 = none) :
    applySubsystemLevel s nl =
      { s with
          levels := s.levels ++ [(nl.1, s.nextCell)],
          cells := updCell s.cells s.nextCell nl.2,
          nextCell := s.nextCell + 1 } := by
  unfold applySubsystemLevel
  rw [hl]

theorem applySubsystemLevel_loggers (s : State) (nl : String × LogLevel) :
    (applySubsystemLevel s nl).loggers = s.loggers := by
  unfold applySubsystemLevel
  split <;> rfl

theorem applySubsystemLevel_defaultLevel (s : State) (nl : String × LogLevel) :
    (applySubsystemLevel s nl).defaultLevel = s.defaultLevel := by
  unfold applySubsystemLevel
  split <;> rfl

theorem applySubsystemLevel_primaryCore (s : State) (nl : String × LogLevel) :
    (applySubsystemLevel s nl).primaryCore = s.primaryCore := by
  unfold applySubsystemLevel
  split <;> rfl

theorem applySubsystemLevel_lookup_mono {s : State} {n : String} {c : CellId}
    (nl : String × LogLevel) (h : alookup s.levels n = some c) :
    alookup (applySubsystemLevel s nl).levels n = some c := by
  unfold applySubsystemLevel
  cases hl : alookup s.levels nl.1 with
  | some cid => simpa using h
  | none => simp [alookup_append, h]

theorem applySubsystemLevel_lookup_other {s : State} {n : String}
    (nl : String × LogLevel) (hne : n ≠ nl.1) :
    alookup (applySubsystemLevel s nl).levels n = alookup s.levels n := by
  unfold applySubsystemLevel
  cases hl : alookup s.levels nl.1 with
  | some cid => rfl
  | none => simp [alookup_append, alookup, Ne.symm hne]

theorem applySubsystemLevel_WF {s : State} (hwf : WF s)
    (nl : String × LogLevel) : WF (applySubsystemLevel s nl) := by
  obtain ⟨h1, h2, h3, h4, h5⟩ := hwf
  cases hl : alookup s.levels nl.1 with
  | some cid =>
    rw [applySubsystemLevel_eq_some hl]
    exact ⟨h1, h2, h3, h4, h5⟩
  | none =>
    have hfst : nl.1 ∉ s.levels.map Prod.fst := by
      intro hmem
      exact (alookup_ne_none_iff s.levels nl.1).2 hmem hl
    have hsnd : s.nextCell ∉ s.levels.map Prod.snd := by
      intro hmem
      rcases List.mem_map.1 hmem with ⟨nc, hnc, hcc⟩
      exact absurd (hcc ▸ h3 nc hnc) (lt_irrefl _)
    rw [applySubsystemLevel_eq_none hl]
    refine ⟨?_, ?_, ?_, h4, ?_⟩
    · rw [List.map_append]
      exact List.Nodup.append h1 (List.nodup_singleton _)
        (fun a ha hb => by simp at hb; exact hfst (hb ▸ ha))
    · rw [List.map_append]
      exact List.Nodup.append h2 (List.nodup_singleton _)
        (fun a ha hb => by simp at hb; exact hsnd (hb ▸ ha))
    · intro nc hnc
      rcases List.mem_append.1 hnc with hold | hnew
      · exact Nat.lt_succ_of_lt (h3 nc hold)
      · simp at hnew
        rw [hnew]
        exact Nat.lt_succ_self _
    · intro nc hnc
      rw [alookup_append, h5 nc hnc]
      rfl

theorem applySubsystemLevel_cells_other {s : State} {n : String} {c : CellId}
    (hwf : WF s) (nl : String × LogLevel) (hne : n ≠ nl.1)
    (hc : alookup s.levels n = some c) :
    (applySubsystemLevel s nl).cells c = s.cells c := by
  unfold applySubsystemLevel
  cases hl : alookup s.levels nl.1 with
  | some cid =>
    have hcc : c ≠ cid := by
      intro h
      exact hne (alookup_snd_inj hwf.2.1 hc (h ▸ hl))
    simpa using updCell_other s.cells nl.2 hcc
  | none =>
    have hcc : c ≠ s.nextCell :=
      Nat.ne_of_lt (hwf.2.2.1 (n, c) (alookup_mem hc))
    simpa using updCell_other s.cells nl.2 hcc

theorem applySubsystemLevel_head (s : State) (nl : String × LogLevel) :
    ∃ c, alookup (applySubsystemLevel s nl).levels nl.1 = some c ∧
      (applySubsystemLevel s nl).cells c = nl.2 ∧
      ∀ c₀, alookup s.levels nl.1 = some c₀ → c = c₀ := by
  cases hl : alookup s.levels nl.1 with
  | some cid =>
    rw [applySubsystemLevel_eq_some hl]
    refine ⟨cid, hl, updCell_same s.cells cid nl.2, ?_⟩
    intro c₀ h
    exact Option.some.inj h
  | none =>
    rw [applySubsystemLevel_eq_none hl]
    refine ⟨s.nextCell, ?_, updCell_same s.cells s.nextCell nl.2, ?_⟩
    · simp [alookup_append, hl, alookup]
    · intro c₀ h
      cases h

theorem applySubsystemLevels_lookup_mono (sl : List (String × LogLevel))
    {s : State} {n : String} {c : CellId} (h : alookup s.levels n = some c) :
    alookup (applySubsystemLevels s sl).levels n = some c := by
  induction sl generalizing s with
  | nil => exact h
  | cons nl rest ih =>
    rw [applySubsystemLevels_cons]
    exact ih (applySubsystemLevel_lookup_mono nl h)

theorem applySubsystemLevels_WF (sl : List (String × LogLevel)) {s : State}
    (hwf : WF s) : WF (applySubsystemLevels s sl) := by
  induction sl generalizing s with
  | nil => exact hwf
  | cons nl rest ih =>
    rw [applySubsystemLevels_cons]
    exact ih (applySubsystemLevel_WF hwf nl)

theorem applySubsystemLevels_loggers (sl : List (String × LogLevel))
    (s : State) : (applySubsystemLevels s sl).loggers = s.loggers := by
  induction sl generalizing s with
  | nil => rfl
  | cons nl rest ih =>
    rw [applySubsystemLevels_cons, ih, applySubsystemLevel_loggers]

theorem applySubsystemLevels_defaultLevel (sl : List (String × LogLevel))
    (s : State) : (applySubsystemLevels s sl).defaultLevel = s.defaultLevel := by
  induction sl generalizing s with
  | nil => rfl
  | cons nl rest ih =>
    rw [applySubsystemLevels_cons, ih, applySubsystemLevel_defaultLevel]

theorem applySubsystemLevels_primaryCore (sl : List (String × LogLevel))
    (s : State) : (applySubsystemLevels s sl).primaryCore = s.primaryCore := by
  induction sl generalizing s with
  | nil => rfl
  | cons nl rest ih =>
    rw [applySubsystemLevels_cons, ih, applySubsystemLevel_primaryCore]

theorem alookup_cons_ne {α : Type} {n : String} (kv : String × α)
    (rest : List (String × α)) (hne : n ≠ kv.1) :
    alookup (kv :: rest) n = alookup rest n := by
  rw [alookup, if_neg (Ne.symm hne)]

theorem applySubsystemLevels_lookup_untouched (sl : List (String × LogLevel))
    {s : State} {n : String} (hn : alookup sl n = none) :
    alookup (applySubsystemLevels s sl).levels n = alookup s.levels n := by
  induction sl generalizing s with
  | nil => rfl
  | cons nl rest ih =>
    have hne : n ≠ nl.1 := by
      intro he
      rw [he, alookup, if_pos rfl] at hn
      cases hn
    have hrest : alookup rest n = none := by
      rwa [alookup_cons_ne nl rest hne] at hn
    rw [applySubsystemLevels_cons, ih hrest,
      applySubsystemLevel_lookup_other nl hne]

theorem applySubsystemLevels_cells_untouched (sl : List (String × LogLevel))
    {s : State} {n : String} {c : CellId} (hwf : WF s)
    (hn : alookup sl n = none) (hc : alookup s.levels n = some c) :
    (applySubsystemLevels s sl).cells c = s.cells c := by
  induction sl generalizing s with
  | nil => rfl
  | cons nl rest ih =>
    have hne : n ≠ nl.1 := by
      intro he
      rw [he, alookup, if_pos rfl] at hn
      cases hn
    have hrest : alookup rest n = none := by
      rwa [alookup_cons_ne nl rest hne] at hn
    rw [applySubsystemLevels_cons,
      ih (applySubsystemLevel_WF hwf nl) hrest
        (applySubsystemLevel_lookup_mono nl hc),
      applySubsystemLevel_cells_other hwf nl hne hc]

theorem applySubsystemLevels_cells_mapped (sl : List (String × LogLevel))
    {s : State} {n : String} {l : LogLevel} (hwf : WF s)
    (hnd : (sl.map Prod.fst).Nodup) (hn : alookup sl n = some l) :
    ∃ c, alookup (applySubsystemLevels s sl).levels n = some c ∧
      (applySubsystemLevels s sl).cells c = l ∧
      ∀ c₀, alookup s.levels n = some c₀ → c = c₀ := by
  induction sl generalizing s with
  | nil => cases hn
  | cons nl rest ih =>
    rw [List.map_cons, List.nodup_cons] at hnd
    rw [applySubsystemLevels_cons]
    by_cases he : n = nl.1
    · subst he
      rw [alookup, if_pos rfl] at hn
      cases hn
      have hrn : alookup rest nl.1 = none :=
        alookup_eq_none_of_not_mem hnd.1
      obtain ⟨c, hlk1, hcell1, hold⟩ := applySubsystemLevel_head s nl
      refine ⟨c, ?_, ?_, hold⟩
      · rw [applySubsystemLevels_lookup_untouched rest hrn, hlk1]
      · rw [applySubsystemLevels_cells_untouched rest
          (applySubsystemLevel_WF hwf nl) hrn hlk1, hcell1]
    · rw [alookup_cons_ne nl rest he] at hn
      obtain ⟨c, h1, h2, h3⟩ := ih (applySubsystemLevel_WF hwf nl) hnd.2 hn
      exact ⟨c, h1, h2,
        fun c₀ hc₀ => h3 c₀ (applySubsystemLevel_lookup_mono nl hc₀)⟩

/-! ## `getLogger` and `Logger` lemmas -/

theorem string_length_ne_zero {n : String} (h : n ≠ "") : n.length ≠ 0 := by
  intro hl
  cases n with
  | mk data =>
    cases data with
    | nil => exact h rfl
    | cons a as => simp [String.length] at hl

theorem getLogger_eq_existing {s : State} {name : String} {cid : CellId}
    (h : alookup s.loggers name = some cid) :
    getLogger s name = (s, cid) := by
  unfold getLogger
  rw [h]

theorem getLogger_eq_pre {s : State} {name : String} {cid : CellId}
    (h1 : alookup s.loggers name = none)
    (h2 : alookup s.levels name = some cid) :
    getLogger s name =
      ({ s with loggers := s.loggers ++ [(name, cid)] }, cid) := by
  unfold getLogger
  rw [h1, h2]

theorem getLogger_eq_fresh {s : State} {name : String}
    (h1 : alookup s.loggers name = none)
    (h2 : alookup s.levels name = none) :
    getLogger s name =
      ({ s with
          levels := s.levels ++ [(name, s.nextCell)],
          cells := updCell s.cells s.nextCell s.defaultLevel,
          nextCell := s.nextCell + 1,
          loggers := s.loggers ++ [(name, s.nextCell)] }, s.nextCell) := by
  unfold getLogger
  rw [h1, h2]

theorem WF_loggers_none {s : State} {name : String} (hwf : WF s)
    (h : alookup s.levels name = none) :
    alookup s.loggers name = none := by
  cases hl : alookup s.loggers name with
  | none => rfl
  | some c =>
    have := hwf.2.2.2.2 (name, c) (alookup_mem hl)
    rw [h] at this
    cases this

theorem getLogger_lookup_self (s : State) (name : String) :
    alookup (getLogger s name).1.loggers name = some (getLogger s name).2 := by
  cases h1 : alookup s.loggers name with
  | some cid => rw [getLogger_eq_existing h1]; exact h1
  | none =>
    cases h2 : alookup s.levels name with
    | some cid =>
      rw [getLogger_eq_pre h1 h2]
      simp [alookup_append, h1, alookup]
    | none =>
      rw [getLogger_eq_fresh h1 h2]
      simp [alookup_append, h1, alookup]

theorem getLogger_loggers_mono {s : State} {n : String} {c : CellId}
    (name : String) (h : alookup s.loggers n = some c) :
    alookup (getLogger s name).1.loggers n = some c := by
  cases h1 : alookup s.loggers name with
  | some cid => rw [getLogger_eq_existing h1]; exact h
  | none =>
    cases h2 : alookup s.levels name with
    | some cid => rw [getLogger_eq_pre h1 h2]; simp [alookup_append, h]
    | none => rw [getLogger_eq_fresh h1 h2]; simp [alookup_append, h]

theorem getLogger_levels_mono {s : State} {n : String} {c : CellId}
    (name : String) (h : alookup s.levels n = some c) :
    alookup (getLogger s name).1.levels n = some c := by
  cases h1 : alookup s.loggers name with
  | some cid => rw [getLogger_eq_existing h1]; exact h
  | none =>
    cases h2 : alookup s.levels name with
    | some cid => rw [getLogger_eq_pre h1 h2]; exact h
    | none => rw [getLogger_eq_fresh h1 h2]; simp [alookup_append, h]

theorem getLogger_defaultLevel (s : State) (name : String) :
    (getLogger s name).1.defaultLevel = s.defaultLevel := by
  unfold getLogger
  split
  · rfl
  · split <;> rfl

theorem getLogger_emittedErrors (s : State) (name : String) :
    (getLogger s name).1.emittedErrors = s.emittedErrors := by
  unfold getLogger
  split
  · rfl
  · split <;> rfl

theorem getLogger_WF {s : State} (hwf : WF s) (name : String) :
    WF (getLogger s name).1 := by
  obtain ⟨h1, h2, h3, h4, h5⟩ := hwf
  cases hg1 : alookup s.loggers name with
  | some cid => rw [getLogger_eq_existing hg1]; exact ⟨h1, h2, h3, h4, h5⟩
  | none =>
    have hnf : name ∉ s.loggers.map Prod.fst := by
      intro hmem
      exact (alookup_ne_none_iff s.loggers name).2 hmem hg1
    cases hg2 : alookup s.levels name with
    | some cid =>
      rw [getLogger_eq_pre hg1 hg2]
      refine ⟨h1, h2, h3, ?_, ?_⟩
      · rw [List.map_append]
        exact List.Nodup.append h4 (List.nodup_singleton _)
          (fun a ha hb => by simp at hb; exact hnf (hb ▸ ha))
      · intro nc hnc
        rcases List.mem_append.1 hnc with hold | hnew
        · exact h5 nc hold
        · simp at hnew
          rw [hnew]
          exact hg2
    | none =>
      have hfst : name ∉ s.levels.map Prod.fst := by
        intro hmem
        exact (alookup_ne_none_iff s.levels name).2 hmem hg2
      have hsnd : s.nextCell ∉ s.levels.map Prod.snd := by
        intro hmem
        rcases List.mem_map.1 hmem with ⟨nc, hnc, hcc⟩
        exact absurd (hcc ▸ h3 nc hnc) (lt_irrefl _)
      rw [getLogger_eq_fresh hg1 hg2]
      refine ⟨?_, ?_, ?_, ?_, ?_⟩
      · rw [List.map_append]
        exact List.Nodup.append h1 (List.nodup_singleton _)
          (fun a ha hb => by simp at hb; exact hfst (hb ▸ ha))
      · rw [List.map_append]
        exact List.Nodup.append h2 (List.nodup_singleton _)
          (fun a ha hb => by simp at hb; exact hsnd (hb ▸ ha))
      · intro nc hnc
        rcases List.mem_append.1 hnc with hold | hnew
        · exact Nat.lt_succ_of_lt (h3 nc hold)
        · simp at hnew
          rw [hnew]
          exact Nat.lt_succ_self _
      · rw [List.map_append]
        exact List.Nodup.append h4 (List.nodup_singleton _)
          (fun a ha hb => by simp at hb; exact hnf (hb ▸ ha))
      · intro nc hnc
        rcases List.mem_append.1 hnc with hold | hnew
        · rw [alookup_append, h5 nc hold]
          rfl
        · simp at hnew
          rw [hnew]
          simp [alookup_append, hg2, alookup]

theorem getLogger_fresh_cell {s : State} {name : String} (hwf : WF s)
    (h2 : alookup s.levels name = none) :
    (getLogger s name).1.cells (getLogger s name).2 = s.defaultLevel := by
  have h1 : alookup s.loggers name = none := WF_loggers_none hwf h2
  rw [getLogger_eq_fresh h1 h2]
  exact updCell_same s.cells s.nextCell s.defaultLevel

theorem Logger_eq_nonempty {name : String} (s : State) (h : name ≠ "") :
    Logger s name =
      ((getLogger s name).1, ⟨name, (getLogger s name).2⟩) := by
  unfold Logger
  rw [if_neg (string_length_ne_zero h)]

theorem Logger_eq_empty (s : State) :
    Logger s "" =
      ((getLogger (bootstrapState s) "undefined").1,
        ⟨"undefined", (getLogger (bootstrapState s) "undefined").2⟩) := by
  unfold Logger
  rw [if_pos (show ("" : String).length = 0 from rfl)]
  rfl

theorem bootstrapState_loggers {s : State} {n : String} {c : CellId}
    (h : alookup s.loggers n = some c) :
    alookup (bootstrapState s).loggers n = some c :=
  getLogger_loggers_mono "setup-logger" h

theorem bootstrapState_levels {s : State} {n : String} {c : CellId}
    (h : alookup s.levels n = some c) :
    alookup (bootstrapState s).levels n = some c :=
  getLogger_levels_mono "setup-logger" h

theorem bootstrapState_WF {s : State} (hwf : WF s) :
    WF (bootstrapState s) :=
  getLogger_WF hwf "setup-logger"

theorem Logger_loggers_mono {s : State} {n : String} {c : CellId}
    (name : String) (h : alookup s.loggers n = some c) :
    alookup (Logger s name).1.loggers n = some c := by
  by_cases he : name = ""
  · subst he
    rw [Logger_eq_empty]
    exact getLogger_loggers_mono "undefined" (bootstrapState_loggers h)
  · rw [Logger_eq_nonempty s he]
    exact getLogger_loggers_mono name h

theorem Logger_levels_mono {s : State} {n : String} {c : CellId}
    (name : String) (h : alookup s.levels n = some c) :
    alookup (Logger s name).1.levels n = some c := by
  by_cases he : name = ""
  · subst he
    rw [Logger_eq_empty]
    exact getLogger_levels_mono "undefined" (bootstrapState_levels h)
  · rw [Logger_eq_nonempty s he]
    exact getLogger_levels_mono name h

theorem Logger_WF {s : State} (hwf : WF s) (name : String) :
    WF (Logger s name).1 := by
  by_cases he : name = ""
  · subst he
    rw [Logger_eq_empty]
    exact getLogger_WF (bootstrapState_WF hwf) "undefined"
  · rw [Logger_eq_nonempty s he]
    exact getLogger_WF hwf name

/-! ## `SetLogLevel`, `SetLogLevelRegex`, `setPrimaryCore` lemmas -/

theorem SetLogLevel_eq_badLevel {s : State} {name level e : String}
    (h : LevelFromString level = .error e) :
    SetLogLevel s name level = (s, some (.unknownLevel e)) := by
  unfold SetLogLevel
  rw [h]

theorem SetLogLevel_eq_wildcard {s : State} {level : String} {lvl : LogLevel}
    (h : LevelFromString level = .ok lvl) :
    SetLogLevel s "*" level = (setAllLoggerLevel s lvl, none) := by
  unfold SetLogLevel
  rw [h]
  rfl

theorem SetLogLevel_eq_missing {s : State} {name level : String}
    {lvl : LogLevel} (h : LevelFromString level = .ok lvl) (hn : name ≠ "*")
    (hm : alookup s.levels name = none) :
    SetLogLevel s name level = (s, some .noSuchLogger) := by
  unfold SetLogLevel
  rw [h]
  dsimp only
  rw [if_neg hn, hm]

theorem SetLogLevel_eq_set {s : State} {name level : String}
    {lvl : LogLevel} {cid : CellId} (h : LevelFromString level = .ok lvl)
    (hn : name ≠ "*") (hm : alookup s.levels name = some cid) :
    SetLogLevel s name level =
      ({ s with cells := updCell s.cells cid lvl }, none) := by
  unfold SetLogLevel
  rw [h]
  dsimp only
  rw [if_neg hn, hm]

theorem SetLogLevelRegex_eq_badLevel {s : State}
    {compile : Except String (String → Bool)} {l e : String}
    (h : LevelFromString l = .error e) :
    SetLogLevelRegex s compile l = (s, some (.unknownLevel e)) := by
  unfold SetLogLevelRegex
  rw [h]

theorem SetLogLevelRegex_eq_badPattern {s : State} {l e : String}
    {lvl : LogLevel} (h : LevelFromString l = .ok lvl) :
    SetLogLevelRegex s (.error e) l = (s, some (.invalidPattern e)) := by
  unfold SetLogLevelRegex
  rw [h]

theorem SetLogLevelRegex_eq_ok {s : State} {l : String} {lvl : LogLevel}
    (m : String → Bool) (h : LevelFromString l = .ok lvl) :
    SetLogLevelRegex s (.ok m) l =
      ({ s with
          cells := s.loggers.foldl
            (fun f nc =>
              if m nc.1 then
                match alookup s.levels nc.1 with
                | some cid => updCell f cid lvl
                | none => f
              else f)
            s.cells }, none) := by
  unfold SetLogLevelRegex
  rw [h]

theorem setPrimaryCore_levels (s : State) (core : Core) :
    (setPrimaryCore s core).levels = s.levels := by
  unfold setPrimaryCore
  split <;> rfl

theorem setPrimaryCore_loggers (s : State) (core : Core) :
    (setPrimaryCore s core).loggers = s.loggers := by
  unfold setPrimaryCore
  split <;> rfl

theorem setPrimaryCore_cells (s : State) (core : Core) :
    (setPrimaryCore s core).cells = s.cells := by
  unfold setPrimaryCore
  split <;> rfl

theorem setPrimaryCore_defaultLevel (s : State) (core : Core) :
    (setPrimaryCore s core).defaultLevel = s.defaultLevel := by
  unfold setPrimaryCore
  split <;> rfl

theorem setPrimaryCore_primaryCore (s : State) (core : Core) :
    (setPrimaryCore s core).primaryCore = some core := by
  unfold setPrimaryCore
  split <;> rfl

theorem setPrimaryCore_WF {s : State} (hwf : WF s) (core : Core) :
    WF (setPrimaryCore s core) := by
  unfold setPrimaryCore
  split <;> exact hwf

theorem SetupLogging_eq (resolve : String → Option String) (s : State)
    (cfg : Config) :
    SetupLogging resolve s cfg =
      applySubsystemLevels
        (setAllLoggerLevel
          (setPrimaryCore
            { s with primaryFormat := cfg.Format, defaultLevel := cfg.Level }
            { format := cfg.Format,
              paths := outputPaths resolve cfg,
              labels := cfg.Labels })
          cfg.Level)
        cfg.SubsystemLevels := rfl

theorem SetupLogging_loggers (resolve : String → Option String) (s : State)
    (cfg : Config) :
    (SetupLogging resolve s cfg).loggers = s.loggers := by
  rw [SetupLogging_eq, applySubsystemLevels_loggers, setAll_loggers,
    setPrimaryCore_loggers]

theorem setAll_WF {s : State} (hwf : WF s) (lvl : LogLevel) :
    WF (setAllLoggerLevel s lvl) := hwf

theorem SetupLogging_WF {s : State} (hwf : WF s)
    (resolve : String → Option String) (cfg : Config) :
    WF (SetupLogging resolve s cfg) := by
  rw [SetupLogging_eq]
  apply applySubsystemLevels_WF
  apply setAll_WF
  exact setPrimaryCore_WF
    (show WF { s with primaryFormat := cfg.Format, defaultLevel := cfg.Level }
      from hwf) _

theorem SetupLogging_levels_mono {s : State} {n : String} {c : CellId}
    (resolve : String → Option String) (cfg : Config)
    (h : alookup s.levels n = some c) :
    alookup (SetupLogging resolve s cfg).levels n = some c := by
  rw [SetupLogging_eq]
  apply applySubsystemLevels_lookup_mono
  rw [setAll_levels, setPrimaryCore_levels]
  exact h

theorem SetLogLevel_loggers (s : State) (name level : String) :
    (SetLogLevel s name level).1.loggers = s.loggers := by
  cases hp : LevelFromString level with
  | error e => rw [SetLogLevel_eq_badLevel hp]
  | ok lvl =>
    by_cases hn : name = "*"
    · subst hn
      rw [SetLogLevel_eq_wildcard hp]
      rfl
    · cases hm : alookup s.levels name with
      | none => rw [SetLogLevel_eq_missing hp hn hm]
      | some cid => rw [SetLogLevel_eq_set hp hn hm]

theorem SetLogLevel_levels (s : State) (name level : String) :
    (SetLogLevel s name level).1.levels = s.levels := by
  cases hp : LevelFromString level with
  | error e => rw [SetLogLevel_eq_badLevel hp]
  | ok lvl =>
    by_cases hn : name = "*"
    · subst hn
      rw [SetLogLevel_eq_wildcard hp]
      rfl
    · cases hm : alookup s.levels name with
      | none => rw [SetLogLevel_eq_missing hp hn hm]
      | some cid => rw [SetLogLevel_eq_set hp hn hm]

theorem SetLogLevel_WF {s : State} (hwf : WF s) (name level : String) :
    WF (SetLogLevel s name level).1 := by
  cases hp : LevelFromString level with
  | error e => rw [SetLogLevel_eq_badLevel hp]; exact hwf
  | ok lvl =>
    by_cases hn : name = "*"
    · subst hn
      rw [SetLogLevel_eq_wildcard hp]
      exact setAll_WF hwf lvl
    · cases hm : alookup s.levels name with
      | none => rw [SetLogLevel_eq_missing hp hn hm]; exact hwf
      | some cid => rw [SetLogLevel_eq_set hp hn hm]; exact hwf

theorem SetLogLevelRegex_loggers (s : State)
    (compile : Except String (String → Bool)) (l : String) :
    (SetLogLevelRegex s compile l).1.loggers = s.loggers := by
  cases hp : LevelFromString l with
  | error e => rw [SetLogLevelRegex_eq_badLevel hp]
  | ok lvl =>
    cases compile with
    | error e => rw [SetLogLevelRegex_eq_badPattern hp]
    | ok m => rw [SetLogLevelRegex_eq_ok m hp]

theorem SetLogLevelRegex_levels (s : State)
    (compile : Except String (String → Bool)) (l : String) :
    (SetLogLevelRegex s compile l).1.levels = s.levels := by
  cases hp : LevelFromString l with
  | error e => rw [SetLogLevelRegex_eq_badLevel hp]
  | ok lvl =>
    cases compile with
    | error e => rw [SetLogLevelRegex_eq_badPattern hp]
    | ok m => rw [SetLogLevelRegex_eq_ok m hp]

theorem SetLogLevelRegex_WF {s : State} (hwf : WF s)
    (compile : Except String (String → Bool)) (l : String) :
    WF (SetLogLevelRegex s compile l).1 := by
  cases hp : LevelFromString l with
  | error e => rw [SetLogLevelRegex_eq_badLevel hp]; exact hwf
  | ok lvl =>
    cases compile with
    | error e => rw [SetLogLevelRegex_eq_badPattern hp]; exact hwf
    | ok m => rw [SetLogLevelRegex_eq_ok m hp]; exact hwf

/-! ## Preservation across all public operations -/

theorem runOp_loggers_mono {s : State} {n : String} {c : CellId} (op : Op)
    (h : alookup s.loggers n = some c) :
    alookup (runOp s op).loggers n = some c := by
  cases op with
  | logger name => exact Logger_loggers_mono name h
  | setup resolve cfg =>
    show alookup (SetupLogging resolve s cfg).loggers n = some c
    rw [SetupLogging_loggers]
    exact h
  | setLevel name level =>
    show alookup (SetLogLevel s name level).1.loggers n = some c
    rw [SetLogLevel_loggers]
    exact h
  | setLevelRegex compile level =>
    show alookup (SetLogLevelRegex s compile level).1.loggers n = some c
    rw [SetLogLevelRegex_loggers]
    exact h
  | setPrimary core =>
    show alookup (setPrimaryCore s core).loggers n = some c
    rw [setPrimaryCore_loggers]
    exact h
  | getSubsystems => exact h

theorem runOp_levels_mono {s : State} {n : String} {c : CellId} (op : Op)
    (h : alookup s.levels n = some c) :
    alookup (runOp s op).levels n = some c := by
  cases op with
  | logger name => exact Logger_levels_mono name h
  | setup resolve cfg => exact SetupLogging_levels_mono resolve cfg h
  | setLevel name level =>
    show alookup (SetLogLevel s name level).1.levels n = some c
    rw [SetLogLevel_levels]
    exact h
  | setLevelRegex compile level =>
    show alookup (SetLogLevelRegex s compile level).1.levels n = some c
    rw [SetLogLevelRegex_levels]
    exact h
  | setPrimary core =>
    show alookup (setPrimaryCore s core).levels n = some c
    rw [setPrimaryCore_levels]
    exact h
  | getSubsystems => exact h

theorem runOp_WF {s : State} (hwf : WF s) (op : Op) : WF (runOp s op) := by
  cases op with
  | logger name => exact Logger_WF hwf name
  | setup resolve cfg => exact SetupLogging_WF hwf resolve cfg
  | setLevel name level => exact SetLogLevel_WF hwf name level
  | setLevelRegex compile level => exact SetLogLevelRegex_WF hwf compile level
  | setPrimary core => exact setPrimaryCore_WF hwf core
  | getSubsystems => exact hwf

theorem runOps_loggers_mono {s : State} {n : String} {c : CellId}
    (ops : List Op) (h : alookup s.loggers n = some c) :
    alookup (runOps ops s).loggers n = some c := by
  induction ops generalizing s with
  | nil => exact h
  | cons op rest ih => exact ih (runOp_loggers_mono op h)

theorem runOps_levels_mono {s : State} {n : String} {c : CellId}
    (ops : List Op) (h : alookup s.levels n = some c) :
    alookup (runOps ops s).levels n = some c := by
  induction ops generalizing s with
  | nil => exact h
  | cons op rest ih => exact ih (runOp_levels_mono op h)

theorem runOps_WF {s : State} (hwf : WF s) (ops : List Op) :
    WF (runOps ops s) := by
  induction ops generalizing s with
  | nil => exact hwf
  | cons op rest ih => exact ih (runOp_WF hwf op)

theorem setAll_primaryCore (s : State) (lvl : LogLevel) :
    (setAllLoggerLevel s lvl).primaryCore = s.primaryCore := rfl

theorem setAll_defaultLevel (s : State) (lvl : LogLevel) :
    (setAllLoggerLevel s lvl).defaultLevel = s.defaultLevel := rfl

theorem outputPaths_eq_append (resolve : String → Option String)
    (cfg : Config) :
    outputPaths resolve cfg =
      (if cfg.Stderr then ["stderr"] else []) ++
      (if cfg.Stdout then ["stdout"] else []) ++
      (if 0 < cfg.File.length then
         match resolve cfg.File with
         | none => []
         | some path => [path]
       else []) ++
      (if 0 < cfg.URL.length then [cfg.URL] else []) := by
  unfold outputPaths
  by_cases hf : 0 < cfg.File.length
  · cases hr : resolve cfg.File with
    | none =>
      by_cases hu : 0 < cfg.URL.length <;>
        cases hS : cfg.Stderr <;> cases hO : cfg.Stdout <;>
          simp [hf, hr, hu, hS, hO]
    | some p =>
      by_cases hu : 0 < cfg.URL.length <;>
        cases hS : cfg.Stderr <;> cases hO : cfg.Stdout <;>
          simp [hf, hr, hu, hS, hO]
  · by_cases hu : 0 < cfg.URL.length <;>
      cases hS : cfg.Stderr <;> cases hO : cfg.Stdout <;>
        simp [hf, hu, hS, hO]

/-! ## Claim theorems -/

/-- Claim C1: `SetupLogging(cfg)` resets then applies levels.  Every
subsystem level holder that existed before the call keeps its identity and
ends at `cfg.Level`, unless its name is a key of `cfg.SubsystemLevels`, in
which case it ends at the mapped level; and every `cfg.SubsystemLevels`
name with no prior holder gains a new atomic-level holder set to the mapped
level. -/
theorem setupLogging_reset_then_apply (resolve : String → Option String)
    (s : State) (cfg : Config) (name : String) (hwf : WF s)
    (hnd : (cfg.SubsystemLevels.map Prod.fst).Nodup) :
    (∀ c, alookup s.levels name = some c →
      alookup (SetupLogging resolve s cfg).levels name = some c ∧
      (SetupLogging resolve s cfg).cells c =
        (alookup cfg.SubsystemLevels name).getD cfg.Level) ∧
    (∀ l, alookup cfg.SubsystemLevels name = some l →
      alookup s.levels name = none →
      ∃ c, alookup (SetupLogging resolve s cfg).levels name = some c ∧
        (SetupLogging resolve s cfg).cells c = l) := by
  rw [SetupLogging_eq]
  have hwf0 :
      WF (setAllLoggerLevel
        (setPrimaryCore
          { s with primaryFormat := cfg.Format, defaultLevel := cfg.Level }
          { format := cfg.Format,
            paths := outputPaths resolve cfg,
            labels := cfg.Labels })
        cfg.Level) :=
    setAll_WF
      (setPrimaryCore_WF
        (show WF { s with primaryFormat := cfg.Format, defaultLevel := cfg.Level }
          from hwf) _) _
  have hlev0 :
      (setAllLoggerLevel
        (setPrimaryCore
          { s with primaryFormat := cfg.Format, defaultLevel := cfg.Level }
          { format := cfg.Format,
            paths := outputPaths resolve cfg,
            labels := cfg.Labels })
        cfg.Level).levels = s.levels := by
    rw [setAll_levels, setPrimaryCore_levels]
  constructor
  · intro c hc
    have hc0 := hlev0.symm ▸ hc
    cases hsl : alookup cfg.SubsystemLevels name with
    | none =>
      refine ⟨?_, ?_⟩
      · rw [applySubsystemLevels_lookup_untouched _ hsl, hlev0]
        exact hc
      · rw [applySubsystemLevels_cells_untouched _ hwf0 hsl hc0]
        have hc1 :
            alookup (setPrimaryCore
              { s with primaryFormat := cfg.Format, defaultLevel := cfg.Level }
              { format := cfg.Format,
                paths := outputPaths resolve cfg,
                labels := cfg.Labels }).levels name = some c := by
          rw [setPrimaryCore_levels]
          exact hc
        rw [setAll_cells_of_mem hc1 cfg.Level]
        rfl
    | some l =>
      obtain ⟨c', h1, h2, h3⟩ :=
        applySubsystemLevels_cells_mapped _ hwf0 hnd hsl
      have hcc : c' = c := h3 c hc0
      subst hcc
      exact ⟨h1, by rw [h2]; rfl⟩
  · intro l hl hnone
    obtain ⟨c, h1, h2, _⟩ := applySubsystemLevels_cells_mapped _ hwf0 hnd hl
    exact ⟨c, h1, h2⟩

/-- Witness for C1 at concrete inputs: state `stA` (subsystem `"a"` in cell
0), configuration `cfgW` (default Debug, override `"a" ↦ Info`). -/
theorem setupLogging_reset_then_apply_witness :
    alookup (SetupLogging (fun _ => none) stA cfgW).levels "a" = some 0 ∧
    (SetupLogging (fun _ => none) stA cfgW).cells 0 = .LevelInfo := by
  have h := (setupLogging_reset_then_apply (fun _ => none) stA cfgW "a"
    (by decide) (by decide)).1 0 (by decide)
  refine ⟨h.1, ?_⟩
  rw [h.2]
  decide

/-- Claim C2: get-or-create is idempotent.  For a non-empty name, two
`Logger(name)` calls, with any interleaving of public operations between
them, yield handles bound to the same live atomic-level cell and the same
registry entry, and no operation ever creates two distinct entries for the
same name (the `loggers` keys stay unique). -/
theorem logger_idempotent_get_or_create (s : State) (name : String)
    (ops : List Op) (hname : name ≠ "") (hwf : WF s) :
    ((Logger (runOps ops (Logger s name).1) name).2).cell
        = ((Logger s name).2).cell ∧
    ((Logger (runOps ops (Logger s name).1) name).2).system
        = ((Logger s name).2).system ∧
    alookup ((Logger (runOps ops (Logger s name).1) name).1).loggers name
        = some ((Logger s name).2).cell ∧
    (((Logger (runOps ops (Logger s name).1) name).1).loggers.map
        Prod.fst).Nodup := by
  rw [Logger_eq_nonempty s hname]
  have hself : alookup (getLogger s name).1.loggers name
      = some (getLogger s name).2 := getLogger_lookup_self s name
  have hafter : alookup (runOps ops (getLogger s name).1).loggers name
      = some (getLogger s name).2 := runOps_loggers_mono ops hself
  rw [Logger_eq_nonempty (runOps ops (getLogger s name).1) hname]
  rw [getLogger_eq_existing hafter]
  exact ⟨rfl, rfl, hafter,
    (runOps_WF (getLogger_WF hwf name) ops).2.2.2.1⟩

/-- Witness for C2: two `Logger("a")` calls with a level change in
between share cell 0, starting from the empty registry. -/
theorem logger_idempotent_witness :
    ((Logger (runOps [Op.setLevel "a" "info"] (Logger initState "a").1)
        "a").2).cell = ((Logger initState "a").2).cell := by
  exact (logger_idempotent_get_or_create initState "a"
    [Op.setLevel "a" "info"] (by decide) (by decide)).1

/-- Counterexample to C3 as stated: with all four destinations requested
(`cfgC3`) and a path resolver that succeeds, the source builds
`["stderr", "stdout", "f", "u"]`, not the claimed file-stdout-stderr-URL
order (`outputPathsSpecC3`), and `SetupLogging` installs the former as the
new primary core's destination list. -/
theorem outputPaths_order_counterexample :
    outputPaths (fun p => some p) cfgC3 = ["stderr", "stdout", "f", "u"] ∧
    outputPathsSpecC3 (fun p => some p) cfgC3
      = ["f", "stdout", "stderr", "u"] ∧
    outputPaths (fun p => some p) cfgC3
      ≠ outputPathsSpecC3 (fun p => some p) cfgC3 ∧
    (SetupLogging (fun p => some p) initState cfgC3).primaryCore =
      some { format := .FormatJSONOutput,
             paths := ["stderr", "stdout", "f", "u"],
             labels := [] } := by
  refine ⟨by decide, by decide, by decide, ?_⟩
  rw [SetupLogging_eq, applySubsystemLevels_primaryCore, setAll_primaryCore,
    setPrimaryCore_primaryCore]
  decide

/-- Claim C3 (amended): `SetupLogging(cfg)` builds the output-destination
list of the new primary core in the order: explicit stderr (if
`cfg.Stderr`), then explicit stdout (if `cfg.Stdout`), then the file (if
`cfg.File` is non-empty and resolvable), then the URL sink (if `cfg.URL` is
non-empty). -/
theorem setupLogging_output_order (resolve : String → Option String)
    (s : State) (cfg : Config) :
    (SetupLogging resolve s cfg).primaryCore =
      some { format := cfg.Format,
             paths :=
               (if cfg.Stderr then ["stderr"] else []) ++
               (if cfg.Stdout then ["stdout"] else []) ++
               (if 0 < cfg.File.length then
                  match resolve cfg.File with
                  | none => []
                  | some path => [path]
                else []) ++
               (if 0 < cfg.URL.length then [cfg.URL] else []),
             labels := cfg.Labels } := by
  rw [SetupLogging_eq, applySubsystemLevels_primaryCore, setAll_primaryCore,
    setPrimaryCore_primaryCore, outputPaths_eq_append]

/-- Claim C4: `SetLogLevelRegex` returns the parse error (resp. the regex
compile error) and changes nothing when the level string (resp. the
pattern) is invalid; on success it returns no error, leaves both registry
maps untouched, and sets exactly the cells of the known (created) subsystems
whose names match, leaving every non-matching subsystem's cell unchanged. -/
theorem setLogLevelRegex_error_and_matching (s : State)
    (compile : Except String (String → Bool)) (lstr : String)
    (hwf : WF s) :
    (∀ e, LevelFromString lstr = .error e →
      SetLogLevelRegex s compile lstr = (s, some (.unknownLevel e))) ∧
    (∀ lvl, LevelFromString lstr = .ok lvl →
      (∀ e, compile = .error e →
        SetLogLevelRegex s compile lstr = (s, some (.invalidPattern e))) ∧
      (∀ m, compile = .ok m →
        (SetLogLevelRegex s compile lstr).2 = none ∧
        (SetLogLevelRegex s compile lstr).1.levels = s.levels ∧
        (SetLogLevelRegex s compile lstr).1.loggers = s.loggers ∧
        ∀ n c, alookup s.loggers n = some c →
          (SetLogLevelRegex s compile lstr).1.cells c =
            if m n then lvl else s.cells c)) := by
  constructor
  · intro e he
    exact SetLogLevelRegex_eq_badLevel he
  · intro lvl hp
    constructor
    · intro e hce
      subst hce
      exact SetLogLevelRegex_eq_badPattern hp
    · intro m hcm
      subst hcm
      rw [SetLogLevelRegex_eq_ok m hp]
      refine ⟨rfl, rfl, rfl, ?_⟩
      intro n c hc
      have hn : alookup s.levels n = some c :=
        hwf.2.2.2.2 (n, c) (alookup_mem hc)
      by_cases hm : m n
      · rw [if_pos hm]
        exact regexFoldl_eq_of_ex s.loggers s.levels m lvl s.cells c
          ⟨(n, c), alookup_mem hc, hm, hn⟩
      · rw [if_neg hm]
        apply regexFoldl_eq_of_not_ex
        rintro ⟨nc, hmem, hmn, hlk⟩
        have hfst : nc.1 = n := alookup_snd_inj hwf.2.1 hlk hn
        exact hm (hfst ▸ hmn)

/-- Witness for C4: on `stA`, matching regex sets subsystem `"a"` (cell 0)
to Warn. -/
theorem setLogLevelRegex_witness :
    (SetLogLevelRegex stA (.ok (fun n => n == "a")) "warn").1.cells 0
      = .LevelWarn := by
  have h := ((setLogLevelRegex_error_and_matching stA
      (.ok (fun n => n == "a")) "warn" (by decide)).2 .LevelWarn
      (by decide)).2 (fun n => n == "a") rfl
  have h4 := h.2.2.2 "a" 0 (by decide)
  rw [h4]
  decide

/-- Claim C5: for a name other than `"*"` and a valid level string,
`SetLogLevel` fails with `NoSuchLogger` and performs no mutation when no
entry for the name was ever created, and otherwise returns no error and
mutates only that entry's atomic level cell. -/
theorem setLogLevel_exact_name (s : State) (name lstr : String)
    (lvl : LogLevel) (hstar : name ≠ "*")
    (hp : LevelFromString lstr = .ok lvl) :
    (alookup s.levels name = none →
      SetLogLevel s name lstr = (s, some .noSuchLogger)) ∧
    (∀ cid, alookup s.levels name = some cid →
      (SetLogLevel s name lstr).2 = none ∧
      (SetLogLevel s name lstr).1.levels = s.levels ∧
      (SetLogLevel s name lstr).1.loggers = s.loggers ∧
      (SetLogLevel s name lstr).1.cells cid = lvl ∧
      ∀ c, c ≠ cid → (SetLogLevel s name lstr).1.cells c = s.cells c) := by
  constructor
  · intro hm
    exact SetLogLevel_eq_missing hp hstar hm
  · intro cid hm
    rw [SetLogLevel_eq_set hp hstar hm]
    exact ⟨rfl, rfl, rfl, updCell_same s.cells cid lvl,
      fun c hc => updCell_other s.cells lvl hc⟩

/-- Witness for C5: on `stA`, `SetLogLevel("zzz", "info")` fails with
`NoSuchLogger` leaving the state intact, and `SetLogLevel("a", "info")`
sets cell 0 to Info. -/
theorem setLogLevel_exact_witness :
    SetLogLevel stA "zzz" "info" = (stA, some .noSuchLogger) ∧
    (SetLogLevel stA "a" "info").1.cells 0 = .LevelInfo := by
  refine ⟨(setLogLevel_exact_name stA "zzz" "info" .LevelInfo (by decide)
    (by decide)).1 (by decide), ?_⟩
  exact ((setLogLevel_exact_name stA "a" "info" .LevelInfo (by decide)
    (by decide)).2 0 (by decide)).2.2.2.1

/-- Claim C6: `SetLogLevel("*", l)` succeeds and sets the atomic level of
every subsystem known at the time of the call to the parsed level; the
process default level is untouched, so a subsystem created by `Logger()`
after the call starts at the process default, not at `l`. -/
theorem setLogLevel_wildcard_spec (s : State) (lstr : String)
    (lvl : LogLevel) (n m : String) (c : CellId)
    (hp : LevelFromString lstr = .ok lvl) (hwf : WF s) (hm : m ≠ "") :
    (SetLogLevel s "*" lstr).2 = none ∧
    (alookup s.levels n = some c →
      (SetLogLevel s "*" lstr).1.cells c = lvl) ∧
    (SetLogLevel s "*" lstr).1.defaultLevel = s.defaultLevel ∧
    (alookup s.levels m = none →
      ((Logger (SetLogLevel s "*" lstr).1 m).1).cells
          ((Logger (SetLogLevel s "*" lstr).1 m).2).cell
        = s.defaultLevel) := by
  rw [SetLogLevel_eq_wildcard hp]
  refine ⟨rfl, ?_, rfl, ?_⟩
  · intro hc
    exact setAll_cells_of_mem hc lvl
  · intro hnone
    rw [Logger_eq_nonempty (setAllLoggerLevel s lvl, (none : Option LogError)).1 hm]
    exact getLogger_fresh_cell (setAll_WF hwf lvl) hnone

/-- Witness for C6: on `stA` (default Error), after the wildcard call with
`"debug"` cell 0 is Debug, and a later `Logger("b")` starts at Error. -/
theorem setLogLevel_wildcard_witness :
    (SetLogLevel stA "*" "debug").1.cells 0 = .LevelDebug ∧
    ((Logger (SetLogLevel stA "*" "debug").1 "b").1).cells
        ((Logger (SetLogLevel stA "*" "debug").1 "b").2).cell
      = .LevelError := by
  have h := setLogLevel_wildcard_spec stA "debug" .LevelDebug "a" "b" 0
    (by decide) (by decide) (by decide)
  exact ⟨h.2.1 (by decide), h.2.2.2 (by decide)⟩

/-- Claim C7: `Logger("")` does not fail the caller: it logs an error
through the bootstrap `setup-logger` and returns a facade bound to the
literal name `"undefined"` — the same registry entry, on repetition, as
`Logger("undefined")`. -/
theorem logger_empty_name (s : State) :
    ((Logger s "").2).system = "undefined" ∧
    ("setup-logger", "Missing name parameter") ∈
      ((Logger s "").1).emittedErrors ∧
    alookup ((Logger s "").1).loggers "undefined"
      = some ((Logger s "").2).cell ∧
    ((Logger (Logger s "").1 "undefined").2).cell = ((Logger s "").2).cell ∧
    (Logger (Logger s "").1 "undefined").1 = (Logger s "").1 := by
  rw [Logger_eq_empty]
  have hself := getLogger_lookup_self (bootstrapState s) "undefined"
  have hne : ("undefined" : String) ≠ "" := by decide
  refine ⟨rfl, ?_, hself, ?_, ?_⟩
  · show ("setup-logger", "Missing name parameter") ∈
      (getLogger (bootstrapState s) "undefined").1.emittedErrors
    rw [getLogger_emittedErrors]
    unfold bootstrapState
    simp
  · rw [Logger_eq_nonempty (getLogger (bootstrapState s) "undefined").1 hne,
      getLogger_eq_existing hself]
  · rw [Logger_eq_nonempty (getLogger (bootstrapState s) "undefined").1 hne,
      getLogger_eq_existing hself]

/-- Claim C8: `GetSubsystems()` returns each currently created subsystem
name exactly once and nothing else: the returned list has no duplicates,
and a name is in it exactly when the registry has a logger entry for it. -/
theorem getSubsystems_spec (s : State) (n : String) (hwf : WF s) :
    (GetSubsystems s).Nodup ∧
    (n ∈ GetSubsystems s ↔ alookup s.loggers n ≠ none) := by
  refine ⟨hwf.2.2.2.1, ?_⟩
  unfold GetSubsystems
  exact (alookup_ne_none_iff s.loggers n).symm

/-- Witness for C8 on `stA`: the listing contains `"a"`, does not contain
`"b"`, and has no duplicates. -/
theorem getSubsystems_witness :
    (GetSubsystems stA).Nodup ∧
    ("a" ∈ GetSubsystems stA ↔ alookup stA.loggers "a" ≠ none) := by
  exact getSubsystems_spec stA "a" (by decide)

/-- Claim C9: subsystem entries are never destroyed.  Every public
operation maps each existing `loggers` binding and each existing `levels`
binding to the same binding afterwards (same name, same cell — the holder
object is kept, not replaced), and preserves registry well-formedness. -/
theorem public_ops_never_destroy (s : State) (op : Op) (n : String)
    (c : CellId) (hwf : WF s) :
    (alookup s.loggers n = some c →
      alookup (runOp s op).loggers n = some c) ∧
    (alookup s.levels n = some c →
      alookup (runOp s op).levels n = some c) ∧
    WF (runOp s op) :=
  ⟨runOp_loggers_mono op, runOp_levels_mono op, runOp_WF hwf op⟩

/-- Witness for C9: creating `"b"` preserves the binding of `"a"`. -/
theorem public_ops_never_destroy_witness :
    alookup (runOp stA (Op.logger "b")).loggers "a" = some 0 ∧
    alookup (runOp stA (Op.logger "b")).levels "a" = some 0 := by
  have h := public_ops_never_destroy stA (Op.logger "b") "a" 0 (by decide)
  exact ⟨h.1 (by decide), h.2.1 (by decide)⟩

/-- Claim C10: a name whose level holder was pre-created by
`Config.SubsystemLevels` but never requested through `Logger()` is visible
to exact-name `SetLogLevel` and to the wildcard (both work on the `levels`
map), but is not listed by `GetSubsystems()` and is untouched by
`SetLogLevelRegex` (both iterate only the `loggers` map). -/
theorem precreated_holder_visibility (s : State) (name lstr : String)
    (lvl : LogLevel) (cid : CellId) (m : String → Bool)
    (hwf : WF s) (hp : LevelFromString lstr = .ok lvl)
    (hstar : name ≠ "*")
    (hlev : alookup s.levels name = some cid)
    (hlog : alookup s.loggers name = none) :
    SetLogLevel s name lstr =
      ({ s with cells := updCell s.cells cid lvl }, none) ∧
    (SetLogLevel s "*" lstr).1.cells cid = lvl ∧
    name ∉ GetSubsystems s ∧
    (SetLogLevelRegex s (.ok m) lstr).1.cells cid = s.cells cid := by
  refine ⟨SetLogLevel_eq_set hp hstar hlev, ?_, ?_, ?_⟩
  · rw [SetLogLevel_eq_wildcard hp]
    exact setAll_cells_of_mem hlev lvl
  · intro hmem
    exact (alookup_ne_none_iff s.loggers name).2 hmem hlog
  · rw [SetLogLevelRegex_eq_ok m hp]
    apply regexFoldl_eq_of_not_ex
    rintro ⟨nc, hmemL, hmn, hlk⟩
    have hfst : nc.1 = name := alookup_snd_inj hwf.2.1 hlk hlev
    have h2 : alookup s.loggers nc.1 ≠ none :=
      (alookup_ne_none_iff s.loggers nc.1).2
        (List.mem_map.2 ⟨nc, hmemL, rfl⟩)
    rw [hfst, hlog] at h2
    exact h2 rfl

/-- Witness for C10 on `stPre` (holder `"pre"` in cell 1, no logger):
exact set succeeds, wildcard reaches cell 1, `GetSubsystems` omits
`"pre"`, and an all-matching regex leaves cell 1 unchanged. -/
theorem precreated_holder_witness :
    (SetLogLevel stPre "pre" "info").2 = none ∧
    (SetLogLevel stPre "*" "info").1.cells 1 = .LevelInfo ∧
    "pre" ∉ GetSubsystems stPre ∧
    (SetLogLevelRegex stPre (.ok (fun _ => true)) "info").1.cells 1
      = stPre.cells 1 := by
  have h := precreated_holder_visibility stPre "pre" "info" .LevelInfo 1
    (fun _ => true) (by decide) (by decide) (by decide) (by decide)
    (by decide)
  refine ⟨?_, h.2.1, h.2.2.1, h.2.2.2⟩
  rw [h.1]

end GoLog
